import Mathlib

/-!
# Shallow embedding of `writium-cache` (src/src/cache.rs, src/src/item.rs)

The cache stores entries `(String, Arc<RwLock<Value>>)` in a `Vec` guarded by a
`Mutex`, front = least-recently-used, back = most-recently-used.  All
backing-store operations (`load`, `unload`, `remove`) return `WritiumResult`
futures; per the `CacheSource` trait documentation in cache.rs, "The future
returned MUST NOT excecute before the call to `poll()`".  The embedding is a
sequential model of one driven call with the futures-0.1 semantics the code is
written against:

* expression evaluation (future *construction*) is eager, in Rust evaluation
  order — in particular the eviction block passed to `.join(...)` in
  `Cache::_get` runs *before* the load future is ever polled;
* a future's *effects* happen when it is polled; `a.join(b)` polls `a` first
  and short-circuits on error, dropping `b` unpolled; `a.and_then(f)` runs `f`
  only on success of `a`; a future dropped without being polled never executes
  (e.g. the `unload` futures discarded in `Drop for Cache`);
* the `WritiumResult` a method returns is polled to completion by the caller
  (the tests call `.wait()` on it).

`Arc::try_unwrap` on an entry succeeds exactly when no caller still holds a
handle to it; `extRefs` counts the outstanding caller handles (the cache's own
reference is not counted).  `Vec::with_capacity(n)` is modelled as having
capacity exactly `n`; since every push is preceded by a removal once
`len == capacity`, the vector never reallocates, so `lock.capacity()` in the
code is the constructor argument throughout.  A panic (out-of-bounds
`Vec::remove`, or `.lock().unwrap()` on a poisoned mutex) poisons the mutex;
every later operation that locks it panics in turn.

Executed backing-store calls are recorded in an event trace in execution
order; constructed-but-dropped futures leave no event.
-/

/-- Errors: `WritiumError::internal(msg)` raised by the cache itself, and
opaque source-defined failures passed through unchanged. -/
inductive WErr where
  | internal (msg : String)
  | source (msg : String)
deriving DecidableEq, Repr

/-- `UNEXPECTED_USE_OF_CACHE` in cache.rs. -/
def UNEXPECTED_USE_OF_CACHE : String := "Unexpected use of cache."

/-- One executed backing-store call (`CacheSource` methods), in the order the
futures were actually polled. -/
inductive Event (V : Type) where
  | load (id : String) (create : Bool)
  | unload (id : String) (value : V)
  | removeSrc (id : String)
deriving DecidableEq, Repr

/-- The pluggable `CacheSource`: result of each call, keyed by arguments.
`load` may fail (e.g. NotFound); `unload`/`remove` default to success. -/
structure CacheSource (V : Type) where
  load : String → Bool → Except WErr V
  unload : String → V → Except WErr Unit
  remove : String → Except WErr Unit

/-- One resident slot of the `Vec`: the id, the value behind the
`Arc<RwLock<_>>`, and the number of caller handles still alive for this entry
(`Arc::try_unwrap` succeeds iff this is `0`). -/
structure Entry (V : Type) where
  id : String
  value : V
  extRefs : Nat
deriving DecidableEq, Repr

/-- State of `CacheInner`: the fixed capacity, the `Vec` (front = LRU, back =
MRU), the trace of executed source calls, and whether the mutex is poisoned by
an earlier panic. -/
structure CacheState (V : Type) where
  capacity : Nat
  entries : List (Entry V)
  events : List (Event V)
  poisoned : Bool
deriving DecidableEq, Repr

/-- `CacheInner::new(capacity, src)`: empty vector allocated with the given
capacity. -/
def CacheState.new (V : Type) (capacity : Nat) : CacheState V :=
  { capacity := capacity, entries := [], events := [], poisoned := false }

/-- `len()`: length of the `Vec`. -/
def CacheState.len (s : CacheState V) : Nat := s.entries.length

/-- Position of an id in the vector, as `lock.iter().position(...)`. -/
def CacheState.pos? (s : CacheState V) (id : String) : Option Nat :=
  s.entries.findIdx? (fun e => e.id = id)

/-- Outcome of a driven `get`/`create` call. -/
inductive GetOutcome (V : Type) where
  | ok (v : V)
  | error (e : WErr)
  | panic
deriving DecidableEq, Repr

/-- Outcome of a driven `remove` call. -/
inductive RemOutcome where
  | ok
  | error (e : WErr)
  | panic
deriving DecidableEq, Repr

/-- `Cache::_get(id, create)`, driven to completion.  `keep` records whether
the caller retains the returned handle (raising `extRefs`) or drops it at
once.  On a hit the entry is moved to the back (MRU).  On a miss the eviction
block runs first (eagerly): with `len == capacity` it removes the front entry;
an entry still referenced fails `Arc::try_unwrap` and the call returns the
internal error without the load future ever being polled; on an empty vector
(`capacity == 0`) `Vec::remove(0)` panics.  Then the load future is polled;
on load failure the pending unload future is dropped unpolled and the error is
returned.  Then the unload future is polled; its failure propagates through
`join`, skipping the final push.  Only when both succeed is the new entry
pushed at the back. -/
def CacheState.get (src : CacheSource V) (s : CacheState V) (id : String)
    (create : Bool) (keep : Bool) : CacheState V × GetOutcome V :=
  if s.poisoned then (s, .panic) else
  match s.pos? id with
  | some pos =>
    match s.entries[pos]? with
    | some e =>
      let e' : Entry V := { e with extRefs := e.extRefs + (if keep then 1 else 0) }
      ({ s with entries := s.entries.eraseIdx pos ++ [e'] }, .ok e.value)
    | none => (s, .panic)
  | none =>
    if s.entries.length = s.capacity then
      match s.entries with
      | [] =>
        ({ s with poisoned := true }, .panic)
      | old :: rest =>
        if old.extRefs ≠ 0 then
          ({ s with entries := rest }, .error (.internal UNEXPECTED_USE_OF_CACHE))
        else
          match src.load id create with
          | .error e =>
            ({ s with
               entries := rest
               events := s.events ++ [.load id create] }, .error e)
          | .ok v =>
            match src.unload old.id old.value with
            | .error e =>
              ({ s with
                 entries := rest
                 events := s.events ++ [.load id create, .unload old.id old.value] },
               .error e)
            | .ok _ =>
              ({ s with
                 entries := rest ++ [⟨id, v, if keep then 1 else 0⟩]
                 events := s.events ++ [.load id create, .unload old.id old.value] },
               .ok v)
    else
      match src.load id create with
      | .error e =>
        ({ s with events := s.events ++ [.load id create] }, .error e)
      | .ok v =>
        ({ s with
           entries := s.entries ++ [⟨id, v, if keep then 1 else 0⟩]
           events := s.events ++ [.load id create] }, .ok v)

/-- `Cache::remove(id)`, driven to completion.  Resident: the entry is
detached with no write-back and `source.remove(id)` runs, its result
returned.  Non-resident: `source.load(id, false)` is polled as an existence
probe; on failure its error is returned and the remove future is dropped
unpolled; on success `source.remove(id)` runs and its result is returned, the
probed value being discarded. -/
def CacheState.remove (src : CacheSource V) (s : CacheState V) (id : String) :
    CacheState V × RemOutcome :=
  if s.poisoned then (s, .panic) else
  match s.pos? id with
  | some pos =>
    match src.remove id with
    | .error e =>
      ({ s with
         entries := s.entries.eraseIdx pos
         events := s.events ++ [.removeSrc id] }, .error e)
    | .ok _ =>
      ({ s with
         entries := s.entries.eraseIdx pos
         events := s.events ++ [.removeSrc id] }, .ok)
  | none =>
    match src.load id false with
    | .error e =>
      ({ s with events := s.events ++ [.load id false] }, .error e)
    | .ok _ =>
      match src.remove id with
      | .error e =>
        ({ s with events := s.events ++ [.load id false, .removeSrc id] }, .error e)
      | .ok _ =>
        ({ s with events := s.events ++ [.load id false, .removeSrc id] }, .ok)

/-- A caller handle to `id` is dropped: `Arc` strong count decreases.  This
does not take the cache mutex. -/
def CacheState.dropHandle (s : CacheState V) (id : String) : CacheState V :=
  { s with entries := s.entries.map (fun e =>
      if e.id = id ∧ e.extRefs ≠ 0 then { e with extRefs := e.extRefs - 1 } else e) }

/-- `Drop for Cache` (runs each time any clone of the `Clone`-derived `Cache`
wrapper is dropped, since the impl is on the wrapper, not on the
`Arc`-shared `CacheInner`): pops every entry off the vector.  For each popped
entry `self.inner.src.unload(..)` merely *constructs* a future whose result is
discarded in statement position, so it is dropped unpolled and no unload
executes; entries that fail `Arc::try_unwrap` just log a warning.  Either
way the vector ends empty and the event trace is unchanged. -/
def CacheState.drop (s : CacheState V) : CacheState V :=
  if s.poisoned then s else { s with entries := [] }

/-- One caller action against the cache, for invariant statements over whole
call sequences. -/
inductive Op where
  | get (id : String) (keep : Bool)
  | create (id : String) (keep : Bool)
  | remove (id : String)
  | dropHandle (id : String)
deriving DecidableEq, Repr

/-- Apply one action, discarding the outcome. -/
def CacheState.step (src : CacheSource V) (s : CacheState V) : Op → CacheState V
  | .get id keep => (s.get src id false keep).1
  | .create id keep => (s.get src id true keep).1
  | .remove id => (s.remove src id).1
  | .dropHandle id => s.dropHandle id

/-- Apply a sequence of actions in order. -/
def CacheState.run (src : CacheSource V) (s : CacheState V) : List Op → CacheState V
  | [] => s
  | op :: ops => (s.step src op).run src ops

/-! ## `CacheItem` (src/src/item.rs)

`CacheItem` holds an id, an `RwLock`-guarded value and an `AtomicBool` dirty
flag.  `write()` calls `set_dirty()` *before* attempting to take the write
lock, so the flag is raised even when lock acquisition fails on a poisoned
lock.  No method of the crate ever stores `false` into the flag. -/

structure CacheItem (T : Type) where
  id : String
  data : T
  lockPoisoned : Bool
  dirty : Bool
deriving DecidableEq, Repr

/-- `CacheItem::new(id, data)`: fresh item, flag clear. -/
def CacheItem.new (id : String) (data : T) : CacheItem T :=
  { id := id, data := data, lockPoisoned := false, dirty := false }

/-- `CacheItem::is_dirty()`. -/
def CacheItem.isDirty (c : CacheItem T) : Bool := c.dirty

/-- `CacheItem::set_dirty()` (crate-internal). -/
def CacheItem.setDirty (c : CacheItem T) : CacheItem T := { c with dirty := true }

/-- `CacheItem::read()`: returns the value, or an internal error on a
poisoned lock; the flag is untouched. -/
def CacheItem.read (c : CacheItem T) : CacheItem T × Except WErr T :=
  if c.lockPoisoned then (c, .error (.internal "Current thread is poisoned."))
  else (c, .ok c.data)

/-- `CacheItem::write()`: sets the flag first, then attempts the write lock;
`f` is the mutation performed through the guard on success. -/
def CacheItem.write (c : CacheItem T) (f : T → T) : CacheItem T × Except WErr Unit :=
  let c' := c.setDirty
  if c'.lockPoisoned then (c', .error (.internal "Current thread is poisoned."))
  else ({ c' with data := f c'.data }, .ok ())

/-- The operations the crate provides on an existing `CacheItem`. -/
inductive ItemOp (T : Type) where
  | read
  | write (f : T → T)
  | isDirty
  | getId
  | setDirty

/-- State transition of each `CacheItem` operation (accessors leave the item
unchanged). -/
def CacheItem.applyOp (c : CacheItem T) : ItemOp T → CacheItem T
  | .read => (c.read).1
  | .write f => (c.write f).1
  | .isDirty => c
  | .getId => c
  | .setDirty => c.setDirty

/-! ## Concrete backing stores used in scenario theorems -/

/-- A store whose `load` always succeeds (value: length of the id),
`unload`/`remove` at their defaults (success). -/
def srcTotal : CacheSource Nat :=
  { load := fun id _ => .ok id.length
    unload := fun _ _ => .ok ()
    remove := fun _ => .ok () }

/-- A store failing to load exactly the id `"b"`, as a NotFound-style
source error. -/
def srcNoB : CacheSource Nat :=
  { load := fun id _ => if id = "b" then .error (.source "not found") else .ok id.length
    unload := fun _ _ => .ok ()
    remove := fun _ => .ok () }

/-- A store whose `load` succeeds and whose `unload` always fails. -/
def srcUnloadErr : CacheSource Nat :=
  { load := fun id _ => .ok id.length
    unload := fun _ _ => .error (.source "unload failed")
    remove := fun _ => .ok () }

/-! ## Basic facts about the embedding -/

lemma CacheState.pos?_lt {s : CacheState V} {id : String} {pos : Nat}
    (h : s.pos? id = some pos) : pos < s.entries.length := by
  unfold CacheState.pos? at h
  exact (List.findIdx?_eq_some_iff_findIdx_eq.mp h).1

lemma CacheState.get_fst_capacity (src : CacheSource V) (s : CacheState V)
    (id : String) (create keep : Bool) :
    ((s.get src id create keep).1).capacity = s.capacity := by
  unfold CacheState.get
  repeat' split <;> try rfl

lemma CacheState.remove_fst_capacity (src : CacheSource V) (s : CacheState V)
    (id : String) : ((s.remove src id).1).capacity = s.capacity := by
  unfold CacheState.remove
  repeat' split <;> try rfl

lemma CacheState.get_fst_len_le (src : CacheSource V) (s : CacheState V)
    (id : String) (create keep : Bool) (h : s.entries.length ≤ s.capacity) :
    ((s.get src id create keep).1).entries.length ≤ s.capacity := by
  unfold CacheState.get
  split
  · exact h
  split
  case _ pos hpos =>
    have hlt := CacheState.pos?_lt hpos
    split
    · simp only [List.length_append, List.length_eraseIdx, if_pos hlt,
        List.length_singleton]
      omega
    · exact h
  split
  case _ hfull =>
    split
    · simpa using h
    case _ old rest hor =>
      have hlen : rest.length + 1 = s.capacity := by
        rw [← hfull, hor]; simp
      split
      · show rest.length ≤ s.capacity
        omega
      split
      · show rest.length ≤ s.capacity
        omega
      split
      · show rest.length ≤ s.capacity
        omega
      · simp only [List.length_append, List.length_singleton]
        omega
  case _ hne =>
    split
    · exact h
    · simp only [List.length_append, List.length_singleton]
      omega

lemma CacheState.remove_fst_len_le (src : CacheSource V) (s : CacheState V)
    (id : String) (h : s.entries.length ≤ s.capacity) :
    ((s.remove src id).1).entries.length ≤ s.capacity := by
  unfold CacheState.remove
  have herase : ∀ p : Nat, (s.entries.eraseIdx p).length ≤ s.capacity := by
    intro p
    rw [List.length_eraseIdx]
    split <;> omega
  split
  · exact h
  split
  case _ pos hpos =>
    split
    · exact herase pos
    · exact herase pos
  case _ =>
    split
    · exact h
    split
    · exact h
    · exact h

lemma CacheState.dropHandle_len (s : CacheState V) (id : String) :
    (s.dropHandle id).entries.length = s.entries.length := by
  unfold CacheState.dropHandle
  simp

lemma CacheState.step_capacity (src : CacheSource V) (s : CacheState V)
    (op : Op) : (s.step src op).capacity = s.capacity := by
  cases op with
  | get id keep => exact CacheState.get_fst_capacity src s id false keep
  | create id keep => exact CacheState.get_fst_capacity src s id true keep
  | remove id => exact CacheState.remove_fst_capacity src s id
  | dropHandle id => rfl

lemma CacheState.step_len_le (src : CacheSource V) (s : CacheState V)
    (op : Op) (h : s.entries.length ≤ s.capacity) :
    (s.step src op).entries.length ≤ (s.step src op).capacity := by
  rw [CacheState.step_capacity]
  cases op with
  | get id keep => exact CacheState.get_fst_len_le src s id false keep h
  | create id keep => exact CacheState.get_fst_len_le src s id true keep h
  | remove id => exact CacheState.remove_fst_len_le src s id h
  | dropHandle id =>
    show (s.dropHandle id).entries.length ≤ s.capacity
    rw [CacheState.dropHandle_len]
    exact h

lemma CacheState.run_len_le (src : CacheSource V) (ops : List Op)
    (s : CacheState V) (h : s.entries.length ≤ s.capacity) :
    (s.run src ops).entries.length ≤ (s.run src ops).capacity := by
  induction ops generalizing s with
  | nil => exact h
  | cons op ops ih =>
    exact ih _ (CacheState.step_len_le src s op h)

lemma CacheState.run_capacity (src : CacheSource V) (ops : List Op)
    (s : CacheState V) : (s.run src ops).capacity = s.capacity := by
  induction ops generalizing s with
  | nil => rfl
  | cons op ops ih =>
    exact (ih _).trans (CacheState.step_capacity src s op)

lemma CacheState.get_hit (src : CacheSource V) (s : CacheState V)
    (id : String) (create keep : Bool) {pos : Nat} {e : Entry V}
    (h0 : s.poisoned = false) (h1 : s.pos? id = some pos)
    (h2 : s.entries[pos]? = some e) :
    s.get src id create keep =
      ({ s with entries := s.entries.eraseIdx pos ++
          [{ e with extRefs := e.extRefs + (if keep then 1 else 0) }] },
       .ok e.value) := by
  unfold CacheState.get
  simp only [h0, h1, h2, Bool.false_eq_true, if_false]

lemma CacheState.get_miss_notfull_err (src : CacheSource V) (s : CacheState V)
    (id : String) (create keep : Bool) {e : WErr}
    (h0 : s.poisoned = false) (h1 : s.pos? id = none)
    (h2 : s.entries.length ≠ s.capacity)
    (h3 : src.load id create = .error e) :
    s.get src id create keep =
      ({ s with events := s.events ++ [.load id create] }, .error e) := by
  unfold CacheState.get
  simp only [h0, h1, h2, h3, Bool.false_eq_true, if_false]

lemma CacheState.get_miss_notfull_ok (src : CacheSource V) (s : CacheState V)
    (id : String) (create keep : Bool) {v : V}
    (h0 : s.poisoned = false) (h1 : s.pos? id = none)
    (h2 : s.entries.length ≠ s.capacity)
    (h3 : src.load id create = .ok v) :
    s.get src id create keep =
      ({ s with
         entries := s.entries ++ [⟨id, v, if keep then 1 else 0⟩]
         events := s.events ++ [.load id create] }, .ok v) := by
  unfold CacheState.get
  simp only [h0, h1, h2, h3, Bool.false_eq_true, if_false]

lemma CacheState.get_miss_full_loadErr (src : CacheSource V) (s : CacheState V)
    (id : String) (create keep : Bool) {old : Entry V} {rest : List (Entry V)}
    {e : WErr}
    (h0 : s.poisoned = false) (h1 : s.pos? id = none)
    (hor : s.entries = old :: rest)
    (hfull : s.entries.length = s.capacity)
    (href : old.extRefs = 0)
    (h3 : src.load id create = .error e) :
    s.get src id create keep =
      ({ s with
         entries := rest
         events := s.events ++ [.load id create] }, .error e) := by
  unfold CacheState.get
  simp only [h0, h1, hfull, hor, href, h3, Bool.false_eq_true, if_false,
    ne_eq, not_true_eq_false, if_true]
  rw [if_pos (hor ▸ hfull)]

lemma CacheState.get_miss_full_unloadErr (src : CacheSource V)
    (s : CacheState V) (id : String) (create keep : Bool)
    {old : Entry V} {rest : List (Entry V)} {v : V} {e : WErr}
    (h0 : s.poisoned = false) (h1 : s.pos? id = none)
    (hor : s.entries = old :: rest)
    (hfull : s.entries.length = s.capacity)
    (href : old.extRefs = 0)
    (h3 : src.load id create = .ok v)
    (h4 : src.unload old.id old.value = .error e) :
    s.get src id create keep =
      ({ s with
         entries := rest
         events := s.events ++ [.load id create, .unload old.id old.value] },
       .error e) := by
  unfold CacheState.get
  simp only [h0, h1, hfull, hor, href, h3, h4, Bool.false_eq_true, if_false,
    ne_eq, not_true_eq_false, if_true]
  rw [if_pos (hor ▸ hfull)]

lemma CacheState.get_miss_full_ok (src : CacheSource V)
    (s : CacheState V) (id : String) (create keep : Bool)
    {old : Entry V} {rest : List (Entry V)} {v : V}
    (h0 : s.poisoned = false) (h1 : s.pos? id = none)
    (hor : s.entries = old :: rest)
    (hfull : s.entries.length = s.capacity)
    (href : old.extRefs = 0)
    (h3 : src.load id create = .ok v)
    (h4 : src.unload old.id old.value = .ok ()) :
    s.get src id create keep =
      ({ s with
         entries := rest ++ [⟨id, v, if keep then 1 else 0⟩]
         events := s.events ++ [.load id create, .unload old.id old.value] },
       .ok v) := by
  unfold CacheState.get
  simp only [h0, h1, hfull, hor, href, h3, h4, Bool.false_eq_true, if_false,
    ne_eq, not_true_eq_false, if_true]
  rw [if_pos (hor ▸ hfull)]

lemma CacheState.get_miss_full_refs (src : CacheSource V)
    (s : CacheState V) (id : String) (create keep : Bool)
    {old : Entry V} {rest : List (Entry V)}
    (h0 : s.poisoned = false) (h1 : s.pos? id = none)
    (hor : s.entries = old :: rest)
    (hfull : s.entries.length = s.capacity)
    (href : old.extRefs ≠ 0) :
    s.get src id create keep =
      ({ s with entries := rest },
       .error (.internal UNEXPECTED_USE_OF_CACHE)) := by
  unfold CacheState.get
  simp only [h0, h1, hfull, hor, href, Bool.false_eq_true, if_false,
    ne_eq, not_false_eq_true, if_true]
  rw [if_pos (hor ▸ hfull)]

lemma CacheState.get_capzero (src : CacheSource V) (s : CacheState V)
    (id : String) (create keep : Bool)
    (h0 : s.poisoned = false) (h1 : s.entries = []) (h2 : s.capacity = 0) :
    s.get src id create keep = ({ s with poisoned := true }, .panic) := by
  unfold CacheState.get
  have h3 : s.pos? id = none := by
    unfold CacheState.pos?
    rw [h1]
    rfl
  simp only [h0, h3, h1, h2, Bool.false_eq_true, if_false, List.length_nil,
    if_true]

lemma CacheState.pos?_eq_none_iff {s : CacheState V} {id : String} :
    s.pos? id = none ↔ ∀ e ∈ s.entries, e.id ≠ id := by
  unfold CacheState.pos?
  rw [List.findIdx?_eq_none_iff]
  simp

lemma CacheState.remove_nonres_probeErr (src : CacheSource V)
    (s : CacheState V) (id : String) {e : WErr}
    (h0 : s.poisoned = false) (h1 : s.pos? id = none)
    (h2 : src.load id false = .error e) :
    s.remove src id =
      ({ s with events := s.events ++ [.load id false] }, .error e) := by
  unfold CacheState.remove
  simp only [h0, h1, h2, Bool.false_eq_true, if_false]

lemma CacheState.remove_nonres_probeOk (src : CacheSource V)
    (s : CacheState V) (id : String) {v : V}
    (h0 : s.poisoned = false) (h1 : s.pos? id = none)
    (h2 : src.load id false = .ok v) :
    (s.remove src id).1 =
      { s with events := s.events ++ [.load id false, .removeSrc id] } ∧
    (s.remove src id).2 =
      (match src.remove id with
       | .error e => RemOutcome.error e
       | .ok _ => RemOutcome.ok) := by
  unfold CacheState.remove
  simp only [h0, h1, h2, Bool.false_eq_true, if_false]
  cases src.remove id <;> exact ⟨rfl, rfl⟩

lemma CacheState.drop_eq (s : CacheState V) (h0 : s.poisoned = false) :
    s.drop = { s with entries := [] } := by
  unfold CacheState.drop
  simp only [h0, Bool.false_eq_true, if_false]

lemma CacheState.run_append (src : CacheSource V) (s : CacheState V)
    (l1 l2 : List Op) :
    s.run src (l1 ++ l2) = (s.run src l1).run src l2 := by
  induction l1 generalizing s with
  | nil => rfl
  | cons op l1 ih => exact ih _

/-- Which `CacheItem` operations store `true` into the dirty flag. -/
def ItemOp.raises : ItemOp T → Bool
  | .write _ => true
  | .setDirty => true
  | _ => false

/-- C10: For every `CacheItem`, the dirty flag is monotone: `new(id, value)`
starts with `is_dirty() = false`; `write()` sets the flag to `true` before
attempting the lock, so it is set even when lock acquisition fails; and every
operation the crate provides either sets the flag or leaves it unchanged —
none ever resets it to `false` (in particular there is no write-back path
that clears it). -/
theorem C10_cacheItem_dirty_monotone (T : Type) (id0 : String) (v : T)
    (c : CacheItem T) (f : T → T) (op : ItemOp T) :
    (CacheItem.new id0 v).isDirty = false ∧
    ((c.write f).1).isDirty = true ∧
    (c.applyOp op).isDirty = (c.isDirty || op.raises) := by
  refine ⟨rfl, ?_, ?_⟩
  · simp only [CacheItem.write, CacheItem.setDirty, CacheItem.isDirty]
    split <;> rfl
  · cases op <;>
      simp [CacheItem.applyOp, CacheItem.read, CacheItem.write,
        CacheItem.setDirty, CacheItem.isDirty, ItemOp.raises] <;>
      split <;> rfl

/-- C3 (code bug): with `capacity == 0` the very first `get`/`create` on any
identifier does not return an uncached freshly loaded value — the eviction
check `lock.len() == lock.capacity()` holds (`0 == 0`), `Vec::remove(0)` runs
on the empty vector and panics, poisoning the mutex; the load future is never
polled (no `load` event) and nothing is ever cached. -/
theorem C3_capacity_zero_panics (V : Type) (src : CacheSource V)
    (id : String) (create keep : Bool) :
    (CacheState.new V 0).get src id create keep =
      ({ CacheState.new V 0 with poisoned := true }, .panic) :=
  CacheState.get_capzero src (CacheState.new V 0) id create keep rfl rfl rfl

/-- C5: for every capacity `C` and every sequence of `get`/`create`/`remove`
(and handle-drop) calls starting from a fresh cache, `len() ≤ C` holds after
every call. -/
theorem C5_len_le_capacity (V : Type) (src : CacheSource V) (C : Nat)
    (ops : List Op) : ((CacheState.new V C).run src ops).len ≤ C := by
  have h := CacheState.run_len_le src ops (CacheState.new V C)
    (by simp [CacheState.new])
  rw [CacheState.run_capacity] at h
  exact h

/-- C8 (code bug): `Drop` is implemented on the `Clone`-derived `Cache`
wrapper rather than on the `Arc`-shared `CacheInner`, so its body runs each
time *any* clone is dropped: here a live cache holding one resident entry has
its resident collection emptied by the teardown body — and no `unload`
executes (the event trace is unchanged), because the unload futures are
dropped unpolled. -/
theorem C8_teardown_on_clone_drop :
    (((CacheState.new Nat 3).run srcTotal [Op.get "0" false]).len = 1) ∧
    (((CacheState.new Nat 3).run srcTotal [Op.get "0" false]).drop.entries = []) ∧
    (((CacheState.new Nat 3).run srcTotal [Op.get "0" false]).drop.events =
      ((CacheState.new Nat 3).run srcTotal [Op.get "0" false]).events) :=
  ⟨rfl, rfl, rfl⟩

/-- C1 counterexample: capacity 1, `"a"` resident, `get("b")` whose load
fails.  The load error is returned, but the cache state is *not* left
unmodified: `len()` drops from 1 to 0 — the LRU entry `"a"` was evicted by
the eagerly-run eviction block before the load failure surfaced. -/
theorem C1_counterexample :
    (((CacheState.new Nat 1).run srcNoB [Op.get "a" false]).len = 1) ∧
    ((((CacheState.new Nat 1).run srcNoB [Op.get "a" false]).get
        srcNoB "b" false false).2 = .error (.source "not found")) ∧
    ((((CacheState.new Nat 1).run srcNoB [Op.get "a" false]).get
        srcNoB "b" false false).1.len = 0) :=
  ⟨rfl, rfl, rfl⟩

/-- C1 amended: when the load fails on a miss the error is returned unchanged
and no entry is inserted; if the cache was not full the state is unmodified
(only a `load` call was executed), but if it was full (its LRU entry having
no outstanding handles) the LRU entry has already been evicted — removed
without any `unload` executing — so `len()` drops by one. -/
theorem C1_load_failure_propagation (src : CacheSource V) (s : CacheState V)
    (id : String) (create keep : Bool) {e : WErr}
    (h0 : s.poisoned = false) (h1 : s.pos? id = none)
    (h3 : src.load id create = .error e) :
    (s.entries.length ≠ s.capacity →
      s.get src id create keep =
        ({ s with events := s.events ++ [.load id create] }, .error e)) ∧
    (∀ old rest, s.entries = old :: rest → s.entries.length = s.capacity →
      old.extRefs = 0 →
      s.get src id create keep =
        ({ s with
           entries := rest
           events := s.events ++ [.load id create] }, .error e)) :=
  ⟨fun h2 => CacheState.get_miss_notfull_err src s id create keep h0 h1 h2 h3,
   fun _ _ hor hfull href =>
     CacheState.get_miss_full_loadErr src s id create keep h0 h1 hor hfull href h3⟩

/-- C1 witness: both branches of the amended statement at concrete inputs —
an empty capacity-2 cache (not full), and a full capacity-1 cache. -/
theorem C1_witness :
    ((CacheState.new Nat 2).get srcNoB "b" false false =
      ({ CacheState.new Nat 2 with events := [Event.load "b" false] },
       .error (.source "not found"))) ∧
    (((CacheState.new Nat 1).run srcNoB [Op.get "a" false]).get
        srcNoB "b" false false =
      ({ (CacheState.new Nat 1).run srcNoB [Op.get "a" false] with
         entries := []
         events := [Event.load "a" false, Event.load "b" false] },
       .error (.source "not found"))) :=
  ⟨(C1_load_failure_propagation srcNoB (CacheState.new Nat 2) "b" false false
      rfl rfl rfl).1 (by decide),
   (C1_load_failure_propagation srcNoB
      ((CacheState.new Nat 1).run srcNoB [Op.get "a" false]) "b" false false
      rfl rfl rfl).2 ⟨"a", 1, 0⟩ [] rfl rfl rfl⟩

/-- C4 counterexample: capacity 1, `"1"` resident, `get("2")` where the load
succeeds but the eviction's `unload` fails.  The claim says the new entry is
still inserted and a handle returned; in fact the unload error propagates
through `join`, the insertion is aborted, and the cache ends empty. -/
theorem C4_counterexample :
    ((((CacheState.new Nat 1).run srcUnloadErr [Op.get "1" false]).get
        srcUnloadErr "2" false false).2 = .error (.source "unload failed")) ∧
    ((((CacheState.new Nat 1).run srcUnloadErr [Op.get "1" false]).get
        srcUnloadErr "2" false false).1.entries = []) :=
  ⟨rfl, rfl⟩

/-- C4 amended: when the eviction's `unload` fails, the eviction itself still
proceeds (the LRU entry is removed), but the insertion is aborted: the
freshly loaded value is discarded, no entry is inserted at the MRU position,
and `get`/`create` returns the unload error instead of a handle. -/
theorem C4_unload_failure_aborts_insertion (src : CacheSource V)
    (s : CacheState V) (id : String) (create keep : Bool)
    {old : Entry V} {rest : List (Entry V)} {v : V} {e : WErr}
    (h0 : s.poisoned = false) (h1 : s.pos? id = none)
    (hor : s.entries = old :: rest)
    (hfull : s.entries.length = s.capacity)
    (href : old.extRefs = 0)
    (h3 : src.load id create = .ok v)
    (h4 : src.unload old.id old.value = .error e) :
    s.get src id create keep =
      ({ s with
         entries := rest
         events := s.events ++ [.load id create, .unload old.id old.value] },
       .error e) :=
  CacheState.get_miss_full_unloadErr src s id create keep h0 h1 hor hfull href h3 h4

/-- C4 witness: the amended statement at a concrete full capacity-1 cache
with a failing `unload`. -/
theorem C4_witness :
    ((CacheState.new Nat 1).run srcUnloadErr [Op.get "1" false]).get
        srcUnloadErr "2" false false =
      ({ (CacheState.new Nat 1).run srcUnloadErr [Op.get "1" false] with
         entries := []
         events := [Event.load "1" false, Event.load "2" false,
           Event.unload "1" 1] },
       .error (.source "unload failed")) :=
  @C4_unload_failure_aborts_insertion Nat srcUnloadErr
    ((CacheState.new Nat 1).run srcUnloadErr [Op.get "1" false]) "2" false false
    ⟨"1", 1, 0⟩ [] 1 (.source "unload failed") rfl rfl rfl rfl rfl rfl rfl

/-- C2 counterexample: capacity 1; `"p"` is loaded and never exclusively
accessed (no write of any kind occurs in the run), yet evicting it for `"q"`
executes `unload("p")` — the backing store's `unload` is called on an entry
that is not dirty.  Moreover teardown of a cache holding the (equally clean,
never-unloaded-before) entry `"p"` executes no `unload` at all: the event
trace is unchanged while the resident collection is emptied. -/
theorem C2_counterexample :
    (((CacheState.new Nat 1).run srcTotal
        [Op.get "p" false, Op.get "q" false]).events =
      [Event.load "p" false, Event.load "q" false, Event.unload "p" 1]) ∧
    ((((CacheState.new Nat 1).run srcTotal [Op.get "p" false]).drop).events =
      [Event.load "p" false]) ∧
    ((((CacheState.new Nat 1).run srcTotal [Op.get "p" false]).drop).entries = []) :=
  ⟨rfl, rfl, rfl⟩

/-- C2 amended: the cache orchestrator tracks no dirty flag at all.  At
eviction, `unload` is executed for the evicted entry unconditionally (once
the load has succeeded and the entry has no outstanding handles), whatever
its access history; at teardown the resident collection is emptied but *no*
`unload` executes — each unload future is constructed in statement position
and dropped unpolled. -/
theorem C2_unload_unconditional (src : CacheSource V) (s : CacheState V)
    (id : String) (create keep : Bool)
    {old : Entry V} {rest : List (Entry V)} {v : V}
    (h0 : s.poisoned = false) (h1 : s.pos? id = none)
    (hor : s.entries = old :: rest)
    (hfull : s.entries.length = s.capacity)
    (href : old.extRefs = 0)
    (h3 : src.load id create = .ok v) :
    (((s.get src id create keep).1).events =
      s.events ++ [.load id create, .unload old.id old.value]) ∧
    s.drop = { s with entries := [] } := by
  refine ⟨?_, CacheState.drop_eq s h0⟩
  cases h4 : src.unload old.id old.value with
  | error e =>
    rw [CacheState.get_miss_full_unloadErr src s id create keep h0 h1 hor hfull href h3 h4]
  | ok u =>
    cases u
    rw [CacheState.get_miss_full_ok src s id create keep h0 h1 hor hfull href h3 h4]

/-- C2 witness: the amended statement at a concrete full capacity-1 cache. -/
theorem C2_witness :
    ((((CacheState.new Nat 1).run srcTotal [Op.get "p" false]).get
        srcTotal "q" false false).1.events =
      [Event.load "p" false, Event.load "q" false, Event.unload "p" 1]) ∧
    (((CacheState.new Nat 1).run srcTotal [Op.get "p" false]).drop =
      { (CacheState.new Nat 1).run srcTotal [Op.get "p" false] with
        entries := [] }) :=
  @C2_unload_unconditional Nat srcTotal
    ((CacheState.new Nat 1).run srcTotal [Op.get "p" false]) "q" false false
    ⟨"p", 1, 0⟩ [] 1 rfl rfl rfl rfl rfl rfl

/-- C7: `remove(id)` on a non-resident identifier probes existence via
`load(id, create = false)`.  If the probe fails, `remove` returns that same
error, the backing store's `remove` future is dropped unpolled (never
executed — no `removeSrc` event), and the resident collection is unchanged.
If the probe succeeds, `source.remove(id)` is executed and its result
returned, while the probed value is discarded rather than cached (the
resident collection is unchanged in this case too). -/
theorem C7_remove_nonresident (src : CacheSource V) (s : CacheState V)
    (id : String) (h0 : s.poisoned = false) (h1 : s.pos? id = none) :
    (∀ e : WErr, src.load id false = .error e →
      s.remove src id =
        ({ s with events := s.events ++ [.load id false] }, .error e)) ∧
    (∀ v : V, src.load id false = .ok v →
      (s.remove src id).1 =
        { s with events := s.events ++ [.load id false, .removeSrc id] } ∧
      (s.remove src id).2 =
        (match src.remove id with
         | .error e => RemOutcome.error e
         | .ok _ => RemOutcome.ok)) :=
  ⟨fun _ h2 => CacheState.remove_nonres_probeErr src s id h0 h1 h2,
   fun _ h2 => CacheState.remove_nonres_probeOk src s id h0 h1 h2⟩

/-- C7 witness: both branches at concrete inputs — the probe for `"b"` fails
on `srcNoB` (no `removeSrc` event, state unchanged), the probe for `"a"`
succeeds and `remove` executes. -/
theorem C7_witness :
    ((CacheState.new Nat 2).remove srcNoB "b" =
      ({ CacheState.new Nat 2 with events := [Event.load "b" false] },
       .error (.source "not found"))) ∧
    (((CacheState.new Nat 2).remove srcNoB "a").1 =
      { CacheState.new Nat 2 with
        events := [Event.load "a" false, Event.removeSrc "a"] } ∧
     ((CacheState.new Nat 2).remove srcNoB "a").2 = RemOutcome.ok) :=
  ⟨(C7_remove_nonresident srcNoB (CacheState.new Nat 2) "b" rfl rfl).1
     (.source "not found") rfl,
   (C7_remove_nonresident srcNoB (CacheState.new Nat 2) "a" rfl rfl).2 1 rfl⟩

lemma CacheState.run_gets_fill (src : CacheSource V) (f : String → V)
    (hld : ∀ i c, src.load i c = .ok (f i)) (ids : List String) :
    ∀ s : CacheState V, s.poisoned = false → ids.Nodup →
      (∀ i ∈ ids, ∀ e ∈ s.entries, e.id ≠ i) →
      s.entries.length + ids.length ≤ s.capacity →
      s.run src (ids.map (fun i => Op.get i false)) =
        { s with
          entries := s.entries ++ ids.map (fun i => ⟨i, f i, 0⟩)
          events := s.events ++ ids.map (fun i => Event.load i false) } := by
  induction ids with
  | nil => intro s h0 _ _ _; simp [CacheState.run]
  | cons i rest ih =>
    intro s h0 hnd hni hlen
    obtain ⟨hnin, hndr⟩ := List.nodup_cons.mp hnd
    have h1 : s.pos? i = none :=
      CacheState.pos?_eq_none_iff.mpr (fun e he => hni i (by simp) e he)
    have h2 : s.entries.length ≠ s.capacity := by
      simp only [List.length_cons] at hlen
      omega
    have hstep := CacheState.get_miss_notfull_ok src s i false false h0 h1 h2
      (hld i false)
    show (((s.get src i false false).1).run src
        (rest.map (fun j => Op.get j false))) = _
    have hfst : (s.get src i false false).1 =
        { capacity := s.capacity, entries := s.entries ++ [⟨i, f i, 0⟩], events := s.events ++ [Event.load i false], poisoned := s.poisoned } := by
      rw [hstep]
      rfl
    rw [hfst]
    rw [ih { capacity := s.capacity, entries := s.entries ++ [⟨i, f i, 0⟩], events := s.events ++ [Event.load i false], poisoned := s.poisoned } ?_ hndr ?_ ?_]
    · simp
    · exact h0
    · intro j hj e he
      simp only [List.mem_append, List.mem_singleton] at he
      rcases he with he | he
      · exact hni j (List.mem_cons_of_mem _ hj) e he
      · subst he
        simp only [ne_eq]
        intro hij
        exact hnin (hij ▸ hj)
    · simp only [List.length_append, List.length_singleton, List.length_nil,
        List.length_cons] at hlen ⊢
      omega

lemma CacheState.run_singleton (src : CacheSource V) (s : CacheState V)
    (op : Op) : s.run src [op] = s.step src op := rfl

lemma CacheState.get_full_fresh (src : CacheSource V) (f : String → V)
    (C : Nat) (i0 : String) (restIds : List String) (last : String)
    (evs : List (Event V))
    (h3 : src.load last false = .ok (f last))
    (h4 : src.unload i0 (f i0) = .ok ())
    (hne : ∀ j ∈ i0 :: restIds, j ≠ last)
    (hC : restIds.length + 1 = C) :
    ({ capacity := C, entries := (i0 :: restIds).map (fun i => (⟨i, f i, 0⟩ : Entry V)), events := evs, poisoned := false } : CacheState V).get src last false false =
      (({ capacity := C, entries := restIds.map (fun i => (⟨i, f i, 0⟩ : Entry V)) ++ [⟨last, f last, 0⟩], events := evs ++ [Event.load last false, Event.unload i0 (f i0)], poisoned := false } : CacheState V), .ok (f last)) := by
  have h1 : ({ capacity := C, entries := (i0 :: restIds).map (fun i => (⟨i, f i, 0⟩ : Entry V)), events := evs, poisoned := false } : CacheState V).pos? last = none := by
    refine CacheState.pos?_eq_none_iff.mpr ?_
    intro e he
    simp only [List.mem_map] at he
    obtain ⟨j, hj, rfl⟩ := he
    exact hne j hj
  exact @CacheState.get_miss_full_ok V src _ last false false
    ⟨i0, f i0, 0⟩ (restIds.map (fun i => ⟨i, f i, 0⟩)) (f last)
    rfl h1 rfl (by simp [hC]) rfl h3 h4

lemma CacheState.run_overflow_scenario (src : CacheSource V) (f : String → V)
    (hld : ∀ i c, src.load i c = .ok (f i))
    (hunl : ∀ i v, src.unload i v = .ok ())
    (C : Nat) (i0 : String) (restIds : List String) (last : String)
    (hnd : (i0 :: (restIds ++ [last])).Nodup)
    (hC : restIds.length + 1 = C) :
    (CacheState.new V C).run src
        ((i0 :: (restIds ++ [last])).map (fun i => Op.get i false)) =
      { capacity := C
        entries := (restIds ++ [last]).map (fun i => (⟨i, f i, 0⟩ : Entry V))
        events := ((i0 :: (restIds ++ [last])).map
            (fun i => Event.load i false)) ++ [Event.unload i0 (f i0)]
        poisoned := false } := by
  have hsplit : (i0 :: (restIds ++ [last])) = (i0 :: restIds) ++ [last] := by
    simp
  rw [hsplit] at hnd ⊢
  obtain ⟨hnd1, _, hdisj⟩ := List.nodup_append.mp hnd
  have hne : ∀ j ∈ i0 :: restIds, j ≠ last := by
    intro j hj
    intro heq
    exact hdisj hj (by simp [heq])
  rw [List.map_append, CacheState.run_append]
  rw [CacheState.run_gets_fill src f hld (i0 :: restIds) (CacheState.new V C)
    rfl hnd1 (by intro j _ e he; simp [CacheState.new] at he)
    (by simp [CacheState.new, List.length_cons]; omega)]
  have hclean : ({ CacheState.new V C with entries := (CacheState.new V C).entries ++ (i0 :: restIds).map (fun i => (⟨i, f i, 0⟩ : Entry V)), events := (CacheState.new V C).events ++ (i0 :: restIds).map (fun i => Event.load i false) } : CacheState V) =
      ({ capacity := C, entries := (i0 :: restIds).map (fun i => (⟨i, f i, 0⟩ : Entry V)), events := (i0 :: restIds).map (fun i => Event.load i false), poisoned := false } : CacheState V) := by
    simp [CacheState.new]
  rw [hclean]
  simp only [List.map_cons, List.map_nil]
  rw [CacheState.run_singleton]
  show (({ capacity := C, entries := (i0 :: restIds).map (fun i => (⟨i, f i, 0⟩ : Entry V)), events := (i0 :: restIds).map (fun i => Event.load i false), poisoned := false } : CacheState V).get src last false false).1 = _
  rw [CacheState.get_full_fresh src f C i0 restIds last _
    (hld last false) (hunl i0 (f i0)) hne hC]
  simp

/-- C6 counterexample: capacity 2 holding `["x", "y"]`; `get("b")` whose load
fails.  An eviction occurs (`"x"`, the LRU entry, is removed) although no
insertion follows — refuting "eviction ... only when the cache is full
immediately before an insertion". -/
theorem C6_counterexample :
    (((CacheState.new Nat 2).run srcNoB
        [Op.get "x" false, Op.get "y" false]).entries.map Entry.id =
      ["x", "y"]) ∧
    ((((CacheState.new Nat 2).run srcNoB
        [Op.get "x" false, Op.get "y" false]).get srcNoB "b" false false).2 =
      .error (.source "not found")) ∧
    ((((CacheState.new Nat 2).run srcNoB
        [Op.get "x" false, Op.get "y" false]).get
          srcNoB "b" false false).1.entries.map Entry.id = ["y"]) :=
  ⟨rfl, rfl, rfl⟩

/-- C6 amended: recency order is maintained: (a) every hit moves the accessed
entry to the most-recently-used (back) position; (b) a miss on a non-full
cache inserts the new entry at the MRU position with no eviction; (c) a miss
on a full cache (capacity ≥ 1, evicted entry unreferenced, load and unload
succeeding) evicts exactly the least-recently-used (front) entry; and (d)
inserting `C+1` distinct identifiers into a fresh capacity-`C` cache
(`C ≥ 1`, loads succeeding, unload succeeding) causes exactly one eviction —
one `unload` event — of the least-recently-accessed identifier, the first
one inserted.  However, eviction is *not* restricted to happen "only
immediately before an insertion": it happens whenever the cache is full at a
miss, even if the load then fails and nothing is inserted. -/
theorem C6_lru_recency_eviction (V : Type) (src : CacheSource V) :
    (∀ (s : CacheState V) (id : String) (create keep : Bool) (pos : Nat)
        (e : Entry V),
      s.poisoned = false → s.pos? id = some pos → s.entries[pos]? = some e →
      s.get src id create keep =
        ({ s with entries := s.entries.eraseIdx pos ++
            [{ e with extRefs := e.extRefs + (if keep then 1 else 0) }] },
         .ok e.value)) ∧
    (∀ (s : CacheState V) (id : String) (create keep : Bool) (v : V),
      s.poisoned = false → s.pos? id = none →
      s.entries.length ≠ s.capacity → src.load id create = .ok v →
      s.get src id create keep =
        ({ s with
           entries := s.entries ++ [⟨id, v, if keep then 1 else 0⟩]
           events := s.events ++ [.load id create] }, .ok v)) ∧
    (∀ (s : CacheState V) (id : String) (create keep : Bool) (old : Entry V)
        (rest : List (Entry V)) (v : V),
      s.poisoned = false → s.pos? id = none → s.entries = old :: rest →
      s.entries.length = s.capacity → old.extRefs = 0 →
      src.load id create = .ok v → src.unload old.id old.value = .ok () →
      s.get src id create keep =
        ({ s with
           entries := rest ++ [⟨id, v, if keep then 1 else 0⟩]
           events := s.events ++ [.load id create, .unload old.id old.value] },
         .ok v)) ∧
    (∀ f : String → V, (∀ i c, src.load i c = .ok (f i)) →
      (∀ i v, src.unload i v = .ok ()) →
      ∀ (C : Nat) (i0 : String) (restIds : List String) (last : String),
        (i0 :: (restIds ++ [last])).Nodup → restIds.length + 1 = C →
        (CacheState.new V C).run src
            ((i0 :: (restIds ++ [last])).map (fun i => Op.get i false)) =
          { capacity := C
            entries := (restIds ++ [last]).map
              (fun i => (⟨i, f i, 0⟩ : Entry V))
            events := ((i0 :: (restIds ++ [last])).map
                (fun i => Event.load i false)) ++ [Event.unload i0 (f i0)]
            poisoned := false }) :=
  ⟨fun s id create keep _ _ h0 h1 h2 =>
     CacheState.get_hit src s id create keep h0 h1 h2,
   fun s id create keep _ h0 h1 h2 h3 =>
     CacheState.get_miss_notfull_ok src s id create keep h0 h1 h2 h3,
   fun s id create keep _ _ _ h0 h1 hor hfull href h3 h4 =>
     CacheState.get_miss_full_ok src s id create keep h0 h1 hor hfull href h3 h4,
   fun f hld hunl _ i0 restIds last hnd hC =>
     CacheState.run_overflow_scenario src f hld hunl _ i0 restIds last hnd hC⟩

/-- C6 witness: all four conjuncts at concrete inputs; for (d), capacity 2
with identifiers `"x", "y", "z"`: exactly one eviction, of `"x"`. -/
theorem C6_witness :
    (((CacheState.new Nat 2).run srcTotal
        [Op.get "x" false, Op.get "y" false]).get srcTotal "x" false false =
      ({ (CacheState.new Nat 2).run srcTotal
           [Op.get "x" false, Op.get "y" false] with
         entries := [⟨"y", 1, 0⟩, ⟨"x", 1, 0⟩] }, .ok 1)) ∧
    ((CacheState.new Nat 2).run srcTotal
        ((["x"] ++ (["y"] ++ ["z"])).map (fun i => Op.get i false)) =
      { capacity := 2
        entries := (["y"] ++ ["z"]).map (fun i => (⟨i, 1, 0⟩ : Entry Nat))
        events := ((["x"] ++ (["y"] ++ ["z"])).map
            (fun i => Event.load i false)) ++ [Event.unload "x" "x".length]
        poisoned := false }) := by
  constructor
  · have h := (C6_lru_recency_eviction Nat srcTotal).1
      ((CacheState.new Nat 2).run srcTotal
        [Op.get "x" false, Op.get "y" false]) "x" false false 0
      ⟨"x", 1, 0⟩ rfl rfl rfl
    exact h
  · have h := (C6_lru_recency_eviction Nat srcTotal).2.2.2
      String.length (fun i c => rfl) (fun i v => rfl) 2 "x" ["y"] "z"
      (by decide) rfl
    exact h
